import Mathlib

/-!
Shallow embedding of the ANI scraping pipeline's validation engine
(`src/validation.py`) and deduplicating write pipeline (`src/writing.py`).

Python scalar values are modelled by `PyVal` (floats as rationals, since no
verified property depends on binary floating-point rounding).  Python dicts
are modelled as insertion-ordered association lists.  External collaborators
(the `re` module, pandas, psycopg2/PostgreSQL) are modelled by executable
Lean counterparts of exactly the operations the source invokes.
-/

namespace ANI

/-- A Python scalar value as it appears in a scraped record:
`None`, `str`, `int`, `float` (modelled as a rational) or `bool`. -/
inductive PyVal where
  | vNone : PyVal
  | vStr (s : String) : PyVal
  | vInt (n : Int) : PyVal
  | vFloat (q : Rat) : PyVal
  | vBool (b : Bool) : PyVal
deriving DecidableEq, Repr

/-- The four scalar type tags recognised by `_TYPE_MAP` in `validation.py`. -/
inductive PyType where
  | str | int | float | bool
deriving DecidableEq, Repr

/-- `_TYPE_MAP` from `validation.py`: name of a type → the type itself. -/
def TYPE_MAP : List (String × PyType) :=
  [("str", PyType.str), ("int", PyType.int), ("float", PyType.float), ("bool", PyType.bool)]

/-- Python `isinstance(value, t)`.  Note that `bool` is a subclass of `int`
in Python, so a boolean value counts as an instance of `int`. -/
def pyIsInstance : PyVal → PyType → Bool
  | PyVal.vStr _, PyType.str => true
  | PyVal.vInt _, PyType.int => true
  | PyVal.vBool _, PyType.int => true
  | PyVal.vBool _, PyType.bool => true
  | PyVal.vFloat _, PyType.float => true
  | _, _ => false

/-- Numeric value of a list of decimal digit characters. -/
def digitsToNat (l : List Char) : Nat :=
  l.foldl (fun acc c => acc * 10 + (c.toNat - ('0').toNat)) 0

/-- Python `int(s)` on a string: optional surrounding whitespace, optional
sign, then decimal digits; anything else raises `ValueError` (`none` here).
Modelled from CPython's accepted syntax restricted to plain decimals. -/
def parseIntPy (s : String) : Option Int :=
  let t := (s.data.dropWhile (· == ' ')).reverse.dropWhile (· == ' ') |>.reverse
  let signed : Int × List Char :=
    match t with
    | '-' :: rest => (-1, rest)
    | '+' :: rest => (1, rest)
    | l => (1, l)
  if signed.2 ≠ [] ∧ signed.2.all Char.isDigit then
    some (signed.1 * Int.ofNat (digitsToNat signed.2))
  else none

/-- Python `float(s)` on a string: optional sign, digits with an optional
fractional part (at least one digit overall); result as an exact rational.
Modelled from CPython's accepted syntax restricted to plain decimals. -/
def parseFloatPy (s : String) : Option Rat :=
  let t := (s.data.dropWhile (· == ' ')).reverse.dropWhile (· == ' ') |>.reverse
  let signed : Rat × List Char :=
    match t with
    | '-' :: rest => (-1, rest)
    | '+' :: rest => (1, rest)
    | l => (1, l)
  let intPart := signed.2.takeWhile (· ≠ '.')
  let rest := signed.2.dropWhile (· ≠ '.')
  let fracPart := match rest with
    | '.' :: f => some f
    | _ => none
  if ¬ intPart.all Char.isDigit then none
  else match fracPart with
    | none =>
        if intPart ≠ [] then some (signed.1 * (digitsToNat intPart : Rat)) else none
    | some f =>
        if f.all Char.isDigit ∧ (intPart ≠ [] ∨ f ≠ []) ∧ rest ≠ ['.'] then
          some (signed.1 * ((digitsToNat intPart : Rat) +
            (digitsToNat f : Rat) / ((10 : Rat) ^ f.length)))
        else none

/-- Python truthiness of a scalar, as used by `bool(value)`. -/
def pyTruthy : PyVal → Bool
  | PyVal.vNone => false
  | PyVal.vStr s => s ≠ ""
  | PyVal.vInt n => n ≠ 0
  | PyVal.vFloat q => q ≠ 0
  | PyVal.vBool b => b

/-- Python `str(value)` for the scalars in play. -/
def pyStr : PyVal → String
  | PyVal.vNone => "None"
  | PyVal.vStr s => s
  | PyVal.vInt n => toString n
  | PyVal.vFloat q => toString q
  | PyVal.vBool b => if b then "True" else "False"

/-- The cast `expected_type(value)` attempted by `_validate_field` when
`isinstance` fails; `none` models the `ValueError`/`TypeError` branch. -/
def pyCast (t : PyType) (v : PyVal) : Option PyVal :=
  match t, v with
  | PyType.str, v => some (PyVal.vStr (pyStr v))
  | PyType.int, PyVal.vStr s => (parseIntPy s).map PyVal.vInt
  | PyType.int, PyVal.vFloat q => some (PyVal.vInt (q.num / (q.den : Int)))
  | PyType.int, PyVal.vInt n => some (PyVal.vInt n)
  | PyType.int, _ => none
  | PyType.float, PyVal.vStr s => (parseFloatPy s).map PyVal.vFloat
  | PyType.float, PyVal.vInt n => some (PyVal.vFloat n)
  | PyType.float, PyVal.vBool b => some (PyVal.vFloat (if b then 1 else 0))
  | PyType.float, PyVal.vFloat q => some (PyVal.vFloat q)
  | PyType.float, _ => none
  | PyType.bool, v => some (PyVal.vBool (pyTruthy v))

/-- A validation rule for one field, from `configs/validation_rules.yaml`:
`{type: ..., required: ..., regex: ...}`, each key optional.  The compiled
regular expression is modelled by its `re.match`-at-start predicate
(the `re` module is an external collaborator); `none` also covers the
falsy empty pattern, which `_validate_field` skips. -/
structure Rule where
  type : Option String := none
  required : Bool := false
  regex : Option (String → Bool) := none

/-- The type step of `_validate_field`: if a truthy `type` name is declared
and resolves in `_TYPE_MAP` and the value is not already an instance,
attempt the cast; `none` models the `return False, None` on cast failure. -/
def typeStep (value : PyVal) (rule : Rule) : Option PyVal :=
  match rule.type with
  | none => some value
  | some name =>
      if name = "" then some value
      else
        match TYPE_MAP.lookup name with
        | none => some value
        | some t => if pyIsInstance value t then some value else pyCast t value

/-- The regex step of `_validate_field`: applied only when a regex is
declared (and truthy) and the possibly-coerced value is a string. -/
def regexStep (value : PyVal) (rule : Rule) : Bool × PyVal :=
  match rule.regex, value with
  | some m, PyVal.vStr s => if m s then (true, value) else (false, PyVal.vNone)
  | _, _ => (true, value)

/-- `_validate_field(value, rule)` from `validation.py`: returns
`(is_valid, cleaned_value)`. -/
def validateField (value : PyVal) (rule : Rule) : Bool × PyVal :=
  match value with
  | PyVal.vNone => (false, PyVal.vNone)
  | v =>
      match typeStep v rule with
      | none => (false, PyVal.vNone)
      | some v2 => regexStep v2 rule

/-- A Python dict from field name to scalar, as an insertion-ordered
association list (unique keys in any dict built by Python). -/
abbrev PyDict := List (String × PyVal)

/-- `d[k] = v` on a Python dict: overwrite the (unique) existing entry in
place, or append a new entry at the end (Python dicts preserve insertion
order). -/
def dictSet (d : PyDict) (k : String) (v : PyVal) : PyDict :=
  match d with
  | [] => [(k, v)]
  | p :: t => if p.1 = k then (k, v) :: t else p :: dictSet t k v

/-- The field loop of `validate_record`, threading the working copy
`cleaned`.  `cleaned.get(field_name)` yields `None` for an absent key. -/
def validateLoop (cleaned : PyDict) : List (String × Rule) → Option PyDict
  | [] => some cleaned
  | (fieldName, rule) :: rest =>
      let value := (List.lookup fieldName cleaned).getD PyVal.vNone
      let res := validateField value rule
      if res.1 then validateLoop (dictSet cleaned fieldName res.2) rest
      else
        if rule.required then none
        else validateLoop (dictSet cleaned fieldName PyVal.vNone) rest

/-- `validate_record(record, rules)` from `validation.py`: the rules
mapping is iterated in insertion order; `dict(record)` is the starting
working copy. -/
def validate_record (record : PyDict) (rules : List (String × Rule)) : Option PyDict :=
  validateLoop record rules

/-- The record loop of `run_validation` from `validation.py` (rule loading
from YAML is I/O and is passed in already loaded): discarded records are
dropped, cleaned records kept in order. -/
def run_validation (records : List PyDict) (rules : List (String × Rule)) : List PyDict :=
  records.filterMap (fun r => validate_record r rules)

/-! ## The write pipeline (`src/writing.py`) -/

/-- Whitespace characters stripped by pandas `str.strip()`. -/
def isWS (c : Char) : Bool :=
  c = ' ' ∨ c = '\t' ∨ c = '\n' ∨ c = '\r' ∨ c = '\x0b' ∨ c = '\x0c'

/-- `str.strip()` on the character list: drop leading and trailing
whitespace. -/
def stripChars (l : List Char) : List Char :=
  ((l.dropWhile isWS).reverse.dropWhile isWS).reverse

/-- pandas `Series.str.strip()` applied to one string. -/
def pyStrip (s : String) : String :=
  String.mk (stripChars s.data)

/-- The projection of a record that the write stage works with: the four
columns `title`, `created_at`, `entity`, `external_link` that drive
deduplication (other columns of the dataframe are carried along unchanged
and play no role in any verified property).  `created_at` is kept in its
`astype(str)` string form. -/
structure Reg where
  title : String
  created_at : String
  entity : String
  external_link : Option String
deriving DecidableEq, Repr

/-- A row of the `regulations` table: a `Reg` plus the serial `id`
generated by the store at insert time. -/
structure RegRow where
  id : Nat
  title : String
  created_at : String
  entity : String
  external_link : Option String
deriving DecidableEq, Repr

/-- The committed database state visible to the pipeline: the
`regulations` table, the `regulations_component` table
(`(regulations_id, components_id)` pairs), and the next serial id. -/
structure DB where
  regulations : List RegRow
  components : List (Nat × Nat)
  nextId : Nat
deriving DecidableEq, Repr

/-- psycopg2 `cursor.executemany`: the rows are inserted one by one into
the open transaction; the first failing row raises (`Except.error` with
the underlying database error message).  `failsAt` is the failure model
of the underlying store: which rows the `INSERT` statement rejects. -/
def execMany {α : Type} (failsAt : α → Option String) (pending : List α) :
    List α → Except String (List α)
  | [] => Except.ok pending
  | r :: rs =>
      match failsAt r with
      | some e => Except.error e
      | none => execMany failsAt (pending ++ [r]) rs

/-- `DatabaseManager.bulk_insert(df, table_name)` from `writing.py`:
`executemany` then `commit`, or `rollback` (the committed rows are left
untouched) and re-raise wrapped as
`RuntimeError(f"Error insertando en {table_name}: {e}")`.
Returns the table's committed rows after the call together with
`Except.ok len(df)` or the raised error. -/
def bulk_insert {α : Type} (failsAt : α → Option String) (tableName : String)
    (committed : List α) (rows : List α) : List α × Except String Nat :=
  match execMany failsAt [] rows with
  | Except.ok pending => (committed ++ pending, Except.ok rows.length)
  | Except.error e => (committed, Except.error s!"Error insertando en {tableName}: {e}")

/-- Serial-id assignment performed by the store on insert into
`regulations` (column `id` is generated, consecutive and increasing). -/
def assignIds (start : Nat) : List Reg → List RegRow
  | [] => []
  | r :: rs => ⟨start, r.title, r.created_at, r.entity, r.external_link⟩ :: assignIds (start + 1) rs

/-- Step 1 of `insert_new_records`: `SELECT title, created_at, entity,
COALESCE(external_link, '') FROM regulations WHERE entity = %s`. -/
def queryExisting (db : DB) (entity : String) : List Reg :=
  (db.regulations.filter (fun r => r.entity = entity)).map
    (fun r => ⟨r.title, r.created_at, r.entity, some (r.external_link.getD "")⟩)

/-- Step 3 of `insert_new_records` applied to one row:
`created_at.astype(str)` (identity on the string form),
`external_link.fillna("").astype(str)`, `title.astype(str).str.strip()`. -/
def normalizeReg (r : Reg) : Reg :=
  ⟨pyStrip r.title, r.created_at, r.entity, some (r.external_link.getD "")⟩

/-- The `unique_key` column of step 4:
`title + "|" + created_at + "|" + external_link` (computed on the
normalized columns). -/
def uniqueKey (r : Reg) : String :=
  r.title ++ "|" ++ r.created_at ++ "|" ++ r.external_link.getD ""

/-- The column triple `["title", "created_at", "external_link"]` used as
`drop_duplicates` subset in step 5 (computed on the normalized columns,
where `external_link` is a plain string). -/
def identityTriple (r : Reg) : String × String × String :=
  (r.title, r.created_at, r.external_link.getD "")

/-- pandas `drop_duplicates(subset=..., keep="first")`: keep a row when
its subset triple has not been seen before. -/
def dropDupsBy (f : Reg → String × String × String) :
    List Reg → List (String × String × String) → List Reg
  | [], _ => []
  | r :: rs, seen =>
      if f r ∈ seen then dropDupsBy f rs seen
      else r :: dropDupsBy f rs (f r :: seen)

/-- Steps 3–6 of `insert_new_records` (the Duplicate Resolver): normalize
both sides, drop candidates whose `unique_key` occurs among the existing
keys (skipped entirely when the existing frame is empty), then drop
internal duplicates on the column triple keeping the first occurrence. -/
def resolveDuplicates (entityDf : List Reg) (dbDf : List Reg) : List Reg :=
  let e := entityDf.map normalizeReg
  let d := dbDf.map normalizeReg
  let newRecords :=
    if d.isEmpty then e
    else
      let existingKeys := d.map uniqueKey
      e.filter (fun c => uniqueKey c ∉ existingKeys)
  dropDupsBy identityTriple newRecords []

/-- Reference formulation of the resolver, following the specification's
words: drop candidates whose key is already stored, then keep only the
first occurrence per identity triple, in original order. -/
def firstPerKey (f : Reg → String × String × String) : List Reg → List Reg
  | [] => []
  | r :: rs => r :: firstPerKey f (rs.filter (fun x => f x ≠ f r))
termination_by l => l.length
decreasing_by
  simp only [List.length_cons]
  exact Nat.lt_succ_of_le (List.length_filter_le _ _)

/-- Reference resolver built from the specification's description (used to
state the corrected form of the resolver claim). -/
def resolveSpec (entityDf : List Reg) (dbDf : List Reg) : List Reg :=
  let e := entityDf.map normalizeReg
  let existingKeys := (dbDf.map normalizeReg).map uniqueKey
  firstPerKey identityTriple (e.filter (fun c => uniqueKey c ∉ existingKeys))

/-- `needle` occurs as a contiguous substring of `hay`. -/
def containsSub (hay needle : List Char) : Bool :=
  match hay with
  | [] => needle.isEmpty
  | _ :: t => needle.isPrefixOf hay || containsSub t needle

/-- Python `s.lower()` (ASCII suffices for the messages inspected). -/
def lowerStr (s : String) : String :=
  String.mk (s.data.map Char.toLower)

/-- The duplicate-error test of step 7:
`"duplicate" in str(e).lower() or "unique" in str(e).lower()`. -/
def isDupError (s : String) : Bool :=
  containsSub (lowerStr s).data "duplicate".data ||
    containsSub (lowerStr s).data "unique".data

/-- Insert `x` into a list sorted in descending order. -/
def insertDesc (x : Nat) : List Nat → List Nat
  | [] => [x]
  | y :: ys => if y ≤ x then x :: y :: ys else y :: insertDesc x ys

/-- Sort in descending order (models `ORDER BY id DESC`). -/
def sortDesc (l : List Nat) : List Nat :=
  l.foldr insertDesc []

/-- Step 8 of `insert_new_records`: `SELECT id FROM regulations WHERE
entity = %s ORDER BY id DESC LIMIT n`. -/
def newIdsQuery (db : DB) (entity : String) (n : Nat) : List Nat :=
  (sortDesc ((db.regulations.filter (fun r => r.entity = entity)).map RegRow.id)).take n

/-- `insert_regulations_component(db_manager, new_ids)` from `writing.py`:
one `(id, 7)` row per new id, via `bulk_insert` on
`regulations_component`; its own `except` turns any raise into
`(0, error message)`.  Returns the updated store alongside. -/
def insert_regulations_component (compFailsAt : Nat × Nat → Option String)
    (db : DB) (newIds : List Nat) : DB × Nat × String :=
  if newIds.isEmpty then (db, 0, "No se proporcionaron IDs de regulación nuevos")
  else
    let compRows := newIds.map (fun i => (i, 7))
    match bulk_insert compFailsAt "regulations_component" db.components compRows with
    | (comps, Except.ok n) =>
        ({ db with components := comps }, n, s!"Insertados {n} componentes de regulación")
    | (_, Except.error e) =>
        (db, 0, s!"Error insertando componentes de regulación: {e}")

/-- The body of the outer `try` of `insert_new_records(db_manager, df,
entity)`: fetch existing, filter the dataframe to the entity, resolve
duplicates, bulk-insert, fetch the new ids, insert component links, and
build the summary message.  `Except.error` models an exception escaping
the body towards the outer handler; the paired `DB` is the committed
state at that moment (a bulk-insert failure has already rolled back). -/
def insert_new_records_inner (failsAt : RegRow → Option String)
    (compFailsAt : Nat × Nat → Option String) (db : DB) (df : List Reg)
    (entity : String) : DB × Except String (Nat × String) :=
  let dbDf := queryExisting db entity
  let entityDf := df.filter (fun r => r.entity = entity)
  if entityDf.isEmpty then (db, Except.ok (0, s!"Sin registros para entidad {entity}"))
  else
    let newRecords := resolveDuplicates entityDf dbDf
    if newRecords.isEmpty then
      (db, Except.ok (0, s!"Sin registros nuevos para {entity} tras validación de duplicados"))
    else
      let totalDuplicates := entityDf.length - newRecords.length
      let rowsWithIds := assignIds db.nextId newRecords
      match bulk_insert failsAt "regulations" db.regulations rowsWithIds with
      | (_, Except.error e) =>
          if isDupError e then
            (db, Except.ok (0, s!"Algunos registros de {entity} eran duplicados y se omitieron"))
          else (db, Except.error e)
      | (regs, Except.ok totalRows) =>
          let db1 : DB := { db with regulations := regs, nextId := db.nextId + totalRows }
          if totalRows = 0 then
            (db1, Except.ok (0, s!"No se insertaron registros para {entity}"))
          else
            let newIds := newIdsQuery db1 entity totalRows
            let compRes :=
              if newIds.isEmpty then (db1, 0, "")
              else insert_regulations_component compFailsAt db1 newIds
            let stats := s!"Procesados: {entityDf.length} | Existentes: {dbDf.length} | " ++
              s!"Duplicados omitidos: {totalDuplicates} | Nuevos insertados: {totalRows}"
            (compRes.1, Except.ok (totalRows, s!"Entidad {entity}: {stats}. {compRes.2.2}"))

/-- `insert_new_records` from `writing.py`: the inner body wrapped in the
outer `except Exception` handler, which rolls back (the committed state is
already rolled back at that point) and returns `(0, error message)`
instead of re-raising. -/
def insert_new_records (failsAt : RegRow → Option String)
    (compFailsAt : Nat × Nat → Option String) (db : DB) (df : List Reg)
    (entity : String) : DB × Nat × String :=
  match insert_new_records_inner failsAt compFailsAt db df entity with
  | (db2, Except.ok r) => (db2, r.1, r.2)
  | (db2, Except.error e) => (db2, 0, s!"Error procesando entidad {entity}: {e}")

/-- Failure model of a store that accepts every insert. -/
def noDbFailure {α : Type} : α → Option String := fun _ => none

/-! ## Lemmas about the validation engine -/

theorem lookup_dictSet_self (k : String) (v : PyVal) :
    ∀ d : PyDict, List.lookup k (dictSet d k v) = some v := by
  intro d
  induction d with
  | nil => simp [dictSet, List.lookup]
  | cons p t ih =>
      obtain ⟨a, b⟩ := p
      by_cases h : a = k
      · subst h
        simp [dictSet, List.lookup]
      · have hbeq : (k == a) = false := by
          simp only [beq_eq_false_iff_ne, ne_eq]
          exact fun hh => h hh.symm
        simp [dictSet, h, List.lookup, hbeq, ih]

theorem lookup_dictSet_ne {g k : String} (h : g ≠ k) (v : PyVal) :
    ∀ d : PyDict, List.lookup g (dictSet d k v) = List.lookup g d := by
  intro d
  induction d with
  | nil =>
      have hbeq : (g == k) = false := by
        simp only [beq_eq_false_iff_ne, ne_eq]
        exact h
      simp [dictSet, List.lookup, hbeq]
  | cons p t ih =>
      obtain ⟨a, b⟩ := p
      by_cases ha : a = k
      · have hbeq : (g == k) = false := by
          simp only [beq_eq_false_iff_ne, ne_eq]
          exact h
        simp [dictSet, ha, List.lookup, hbeq]
      · cases hga : g == a <;> simp [dictSet, ha, List.lookup, hga, ih]

theorem validateLoop_required_discard :
    ∀ (rules : List (String × Rule)) (cleaned : PyDict) (f : String) (rule : Rule),
      (rules.map Prod.fst).Nodup →
      (f, rule) ∈ rules →
      rule.required = true →
      (validateField ((List.lookup f cleaned).getD PyVal.vNone) rule).1 = false →
      validateLoop cleaned rules = none := by
  intro rules
  induction rules with
  | nil =>
      intro cleaned f rule _ hmem
      simp at hmem
  | cons gr rest ih =>
      intro cleaned f rule hnd hmem hreq hfail
      obtain ⟨g, rg⟩ := gr
      rw [List.map_cons, List.nodup_cons] at hnd
      obtain ⟨hgnot, hnd'⟩ := hnd
      rcases List.mem_cons.mp hmem with heq | hmem'
      · injection heq with h1 h2
        subst h1
        subst h2
        simp [validateLoop, hfail, hreq]
      · have hg : g ≠ f := by
          intro hgf
          subst hgf
          exact hgnot (List.mem_map.mpr ⟨(g, rule), hmem', rfl⟩)
        have hlook : ∀ w, (validateField
            ((List.lookup f (dictSet cleaned g w)).getD PyVal.vNone) rule).1 = false := by
          intro w
          rw [lookup_dictSet_ne (Ne.symm hg)]
          exact hfail
        cases hv : (validateField ((List.lookup g cleaned).getD PyVal.vNone) rg).1 with
        | true =>
            have hstep : validateLoop cleaned ((g, rg) :: rest) =
                validateLoop (dictSet cleaned g
                  (validateField ((List.lookup g cleaned).getD PyVal.vNone) rg).2) rest := by
              simp [validateLoop, hv]
            rw [hstep]
            exact ih _ f rule hnd' hmem' hreq (hlook _)
        | false =>
            cases hr : rg.required with
            | true => simp [validateLoop, hv, hr]
            | false =>
                have hstep : validateLoop cleaned ((g, rg) :: rest) =
                    validateLoop (dictSet cleaned g PyVal.vNone) rest := by
                  simp [validateLoop, hv, hr]
                rw [hstep]
                exact ih _ f rule hnd' hmem' hreq (hlook _)

theorem validateLoop_frame :
    ∀ (rules : List (String × Rule)) (cleaned out : PyDict),
      validateLoop cleaned rules = some out →
      ∀ g : String, g ∉ rules.map Prod.fst →
        List.lookup g out = List.lookup g cleaned := by
  intro rules
  induction rules with
  | nil =>
      intro cleaned out h g _
      simp [validateLoop] at h
      subst h
      rfl
  | cons fr rest ih =>
      intro cleaned out h g hg
      obtain ⟨f, rule⟩ := fr
      rw [List.map_cons] at hg
      have hgf : g ≠ f := by
        intro e
        subst e
        exact hg (List.mem_cons_self _ _)
      have hg' : g ∉ rest.map Prod.fst := fun m => hg (List.mem_cons_of_mem _ m)
      cases hv : (validateField ((List.lookup f cleaned).getD PyVal.vNone) rule).1 with
      | true =>
          have h' : validateLoop (dictSet cleaned f
              (validateField ((List.lookup f cleaned).getD PyVal.vNone) rule).2) rest
                = some out := by
            simpa [validateLoop, hv] using h
          rw [ih _ _ h' g hg', lookup_dictSet_ne hgf]
      | false =>
          cases hr : rule.required with
          | true =>
              exfalso
              simp [validateLoop, hv, hr] at h
          | false =>
              have h' : validateLoop (dictSet cleaned f PyVal.vNone) rest = some out := by
                simpa [validateLoop, hv, hr] using h
              rw [ih _ _ h' g hg', lookup_dictSet_ne hgf]

theorem validateLoop_spec :
    ∀ (rules : List (String × Rule)) (cleaned : PyDict),
      (rules.map Prod.fst).Nodup →
      (∀ g rg, (g, rg) ∈ rules → rg.required = true →
        (validateField ((List.lookup g cleaned).getD PyVal.vNone) rg).1 = true) →
      ∃ out, validateLoop cleaned rules = some out ∧
        (∀ g : String, g ∉ rules.map Prod.fst →
          List.lookup g out = List.lookup g cleaned) ∧
        (∀ g rg, (g, rg) ∈ rules →
          List.lookup g out =
            some (if (validateField ((List.lookup g cleaned).getD PyVal.vNone) rg).1
              then (validateField ((List.lookup g cleaned).getD PyVal.vNone) rg).2
              else PyVal.vNone)) := by
  intro rules
  induction rules with
  | nil =>
      intro cleaned _ _
      refine ⟨cleaned, by simp [validateLoop], fun g _ => rfl, ?_⟩
      intro g rg hmem
      simp at hmem
  | cons fr rest ih =>
      intro cleaned hnd hpre
      obtain ⟨f, rule⟩ := fr
      rw [List.map_cons, List.nodup_cons] at hnd
      obtain ⟨hf, hnd'⟩ := hnd
      have step : ∀ w : PyVal,
          (∀ g rg, (g, rg) ∈ rest → rg.required = true →
            (validateField ((List.lookup g (dictSet cleaned f w)).getD PyVal.vNone) rg).1
              = true) := by
        intro w g rg hmem hreq
        have hgf : g ≠ f := by
          intro h
          subst h
          exact hf (List.mem_map.mpr ⟨(g, rg), hmem, rfl⟩)
        rw [lookup_dictSet_ne hgf]
        exact hpre g rg (List.mem_cons_of_mem _ hmem) hreq
      have stepLookup : ∀ (w : PyVal) g, g ≠ f →
          List.lookup g (dictSet cleaned f w) = List.lookup g cleaned :=
        fun w g hgf => lookup_dictSet_ne hgf w cleaned
      cases hv : (validateField ((List.lookup f cleaned).getD PyVal.vNone) rule).1 with
      | true =>
          obtain ⟨out, hout, hframe, hmem⟩ :=
            ih (dictSet cleaned f
              (validateField ((List.lookup f cleaned).getD PyVal.vNone) rule).2) hnd' (step _)
          refine ⟨out, by simp [validateLoop, hv, hout], ?_, ?_⟩
          · intro g hg
            rw [List.map_cons] at hg
            have hgf : g ≠ f := by
              intro e
              subst e
              exact hg (List.mem_cons_self _ _)
            have hg' : g ∉ rest.map Prod.fst := fun m => hg (List.mem_cons_of_mem _ m)
            rw [hframe g hg', stepLookup _ g hgf]
          · intro g rg hm
            rcases List.mem_cons.mp hm with heq | hm'
            · injection heq with h1 h2
              subst h1
              subst h2
              rw [hframe g hf, lookup_dictSet_self, hv]
              simp
            · have hgf : g ≠ f := by
                intro h
                subst h
                exact hf (List.mem_map.mpr ⟨(g, rg), hm', rfl⟩)
              rw [hmem g rg hm', stepLookup _ g hgf]
      | false =>
          have hr : rule.required = false := by
            cases hr : rule.required with
            | false => rfl
            | true =>
                have := hpre f rule (List.mem_cons_self _ _) hr
                rw [hv] at this
                exact absurd this (by simp)
          obtain ⟨out, hout, hframe, hmem⟩ :=
            ih (dictSet cleaned f PyVal.vNone) hnd' (step _)
          refine ⟨out, by simp [validateLoop, hv, hr, hout], ?_, ?_⟩
          · intro g hg
            rw [List.map_cons] at hg
            have hgf : g ≠ f := by
              intro e
              subst e
              exact hg (List.mem_cons_self _ _)
            have hg' : g ∉ rest.map Prod.fst := fun m => hg (List.mem_cons_of_mem _ m)
            rw [hframe g hg', stepLookup _ g hgf]
          · intro g rg hm
            rcases List.mem_cons.mp hm with heq | hm'
            · injection heq with h1 h2
              subst h1
              subst h2
              rw [hframe g hf, lookup_dictSet_self, hv]
              simp
            · have hgf : g ≠ f := by
                intro h
                subst h
                exact hf (List.mem_map.mpr ⟨(g, rg), hm', rfl⟩)
              rw [hmem g rg hm', stepLookup _ g hgf]

/-- Reduction of `_validate_field` for a non-null value: the type step
decides coercion, then the regex step runs on its result. -/
theorem validateField_not_none (v : PyVal) (rule : Rule) (h : v ≠ PyVal.vNone) :
    validateField v rule =
      match typeStep v rule with
      | none => (false, PyVal.vNone)
      | some v2 => regexStep v2 rule := by
  cases v
  · exact absurd rfl h
  all_goals rfl

/-! ## Claim theorems: validation -/

/-- C1: for every rules mapping and raw record, if any field whose rule is
`required: true` is null/absent or fails its type coercion or pattern
check, `validate_record` returns `none` (the record is discarded) and the
record contributes nothing to `run_validation`'s output. -/
theorem claim_C1_required_field_discard :
    ∀ (rules : List (String × Rule)) (record : PyDict) (f : String) (rule : Rule),
      (rules.map Prod.fst).Nodup →
      (f, rule) ∈ rules →
      rule.required = true →
      (validateField ((List.lookup f record).getD PyVal.vNone) rule).1 = false →
      validate_record record rules = none ∧
        ∀ pre post : List PyDict,
          run_validation (pre ++ record :: post) rules = run_validation (pre ++ post) rules := by
  intro rules record f rule hnd hmem hreq hfail
  have hd : validate_record record rules = none :=
    validateLoop_required_discard rules record f rule hnd hmem hreq hfail
  refine ⟨hd, ?_⟩
  intro pre post
  simp [run_validation, List.filterMap_append, List.filterMap_cons, hd]

/-- Witness for C1: a record whose required `title` is null is discarded
and absent from the output of a one-record run. -/
theorem claim_C1_witness :
    validate_record [("title", PyVal.vNone)] [("title", { required := true })] = none ∧
      run_validation [[("title", PyVal.vNone)]] [("title", { required := true })] = [] := by
  have h := claim_C1_required_field_discard [("title", { required := true })]
    [("title", PyVal.vNone)] "title" { required := true }
    (by simp) (List.mem_cons_self _ _) rfl (by decide)
  refine ⟨h.1, ?_⟩
  have h2 := h.2 [] []
  simpa [run_validation] using h2

/-- C9: `validate_record` (a pure function of its input in this embedding;
the source copies the dict before mutating) sends a retained record to an
output that agrees with the input on every field not named in the rules
mapping. -/
theorem claim_C9_unruled_passthrough :
    ∀ (record : PyDict) (rules : List (String × Rule)) (out : PyDict),
      validate_record record rules = some out →
      ∀ g : String, g ∉ rules.map Prod.fst →
        List.lookup g out = List.lookup g record :=
  fun record rules out h => validateLoop_frame rules record out h

/-- Witness for C9: an unruled field `extra` keeps its input value. -/
theorem claim_C9_witness :
    ∃ out : PyDict,
      validate_record [("extra", PyVal.vInt 3), ("title", PyVal.vStr "T")]
          [("title", { type := some "str", required := true })] = some out ∧
        List.lookup "extra" out = some (PyVal.vInt 3) := by
  have hv : validate_record [("extra", PyVal.vInt 3), ("title", PyVal.vStr "T")]
      [("title", { type := some "str", required := true })] =
        some [("extra", PyVal.vInt 3), ("title", PyVal.vStr "T")] := by decide
  refine ⟨_, hv, ?_⟩
  have := claim_C9_unruled_passthrough _ _ _ hv "extra" (by decide)
  rw [this]
  decide

/-- Counterexample to C6 as stated: field `a` is optional and fails (it is
null), yet the record is *not* retained, because the required field `b`
also fails; the claim omits the proviso that every required field must
validate. -/
theorem claim_C6_counterexample :
    ({ required := false } : Rule).required = false ∧
      (validateField ((List.lookup "a" ([] : PyDict)).getD PyVal.vNone)
        ({ required := false } : Rule)).1 = false ∧
      validate_record ([] : PyDict)
        [("a", { required := false }), ("b", { required := true })] = none := by
  refine ⟨rfl, by decide, by decide⟩

/-- C6 (amended): *provided every required field validates*, a record with
an invalid or null non-required field is retained with that field nulled,
every ruled field that validated keeps its (possibly coerced) value, and
unruled fields pass through. -/
theorem claim_C6_optional_nulling_amended :
    ∀ (record : PyDict) (rules : List (String × Rule)) (f : String) (rule : Rule),
      (rules.map Prod.fst).Nodup →
      (∀ g rg, (g, rg) ∈ rules → rg.required = true →
        (validateField ((List.lookup g record).getD PyVal.vNone) rg).1 = true) →
      (f, rule) ∈ rules →
      rule.required = false →
      (validateField ((List.lookup f record).getD PyVal.vNone) rule).1 = false →
      ∃ out, validate_record record rules = some out ∧
        List.lookup f out = some PyVal.vNone ∧
        (∀ g rg, (g, rg) ∈ rules →
          (validateField ((List.lookup g record).getD PyVal.vNone) rg).1 = true →
          List.lookup g out =
            some (validateField ((List.lookup g record).getD PyVal.vNone) rg).2) ∧
        (∀ g, g ∉ rules.map Prod.fst → List.lookup g out = List.lookup g record) := by
  intro record rules f rule hnd hpre hmem hreq hfail
  obtain ⟨out, hout, hframe, hmemo⟩ := validateLoop_spec rules record hnd hpre
  refine ⟨out, hout, ?_, ?_, hframe⟩
  · have hx := hmemo f rule hmem
    rw [hfail] at hx
    simpa using hx
  · intro g rg hm hok
    have hx := hmemo g rg hm
    rw [hok] at hx
    simpa using hx

/-- Witness for C6 (amended): `a` fails `int` coercion and is nulled,
required `b` passes, the record is retained. -/
theorem claim_C6_witness :
    ∃ out : PyDict,
      validate_record [("a", PyVal.vStr "x"), ("b", PyVal.vStr "T")]
          [("a", { type := some "int" }), ("b", { type := some "str", required := true })]
        = some out ∧ List.lookup "a" out = some PyVal.vNone := by
  obtain ⟨out, h1, h2, _, _⟩ := claim_C6_optional_nulling_amended
    [("a", PyVal.vStr "x"), ("b", PyVal.vStr "T")]
    [("a", { type := some "int" }), ("b", { type := some "str", required := true })]
    "a" { type := some "int" }
    (by simp)
    (by
      intro g rg hm
      simp only [List.mem_cons, List.mem_singleton, Prod.mk.injEq] at hm
      rcases hm with ⟨rfl, rfl⟩ | ⟨rfl, rfl⟩ | hm
      · intro h
        exact absurd h (by decide)
      · intro _
        decide
      · simp at hm)
    (List.mem_cons_self _ _) rfl (by decide)
  exact ⟨out, h1, h2⟩

/-- C8: `_validate_field`'s type dispatch on a non-null value: an
unrecognized (or empty) declared type name applies no check or coercion
(permissive fallback, straight to the regex step); a recognized type with
the value already an instance also skips coercion; otherwise the value is
coerced, a successful coercion feeds the regex step and a failed coercion
fails the field. -/
theorem claim_C8_type_dispatch :
    ∀ (v : PyVal) (rule : Rule) (t : String),
      v ≠ PyVal.vNone →
      rule.type = some t →
      (TYPE_MAP.lookup t = none → validateField v rule = regexStep v rule) ∧
      (∀ ty, TYPE_MAP.lookup t = some ty →
        (pyIsInstance v ty = true → validateField v rule = regexStep v rule) ∧
        (pyIsInstance v ty = false →
          (∀ v2, pyCast ty v = some v2 → validateField v rule = regexStep v2 rule) ∧
          (pyCast ty v = none → validateField v rule = (false, PyVal.vNone)))) := by
  intro v rule t hv htype
  have hred := validateField_not_none v rule hv
  constructor
  · intro hnone
    have hts : typeStep v rule = some v := by
      by_cases ht : t = ""
      · simp [typeStep, htype, ht]
      · simp [typeStep, htype, ht, hnone]
    rw [hred, hts]
  · intro ty hsome
    have htne : t ≠ "" := by
      intro h0
      have hval : TYPE_MAP.lookup ("" : String) = none := by decide
      rw [h0, hval] at hsome
      exact Option.noConfusion hsome
    constructor
    · intro hinst
      have hts : typeStep v rule = some v := by
        simp [typeStep, htype, htne, hsome, hinst]
      rw [hred, hts]
    · intro hninst
      constructor
      · intro v2 hcast
        have hts : typeStep v rule = some v2 := by
          simp [typeStep, htype, htne, hsome, hninst, hcast]
        rw [hred, hts]
      · intro hcast
        have hts : typeStep v rule = none := by
          simp [typeStep, htype, htne, hsome, hninst, hcast]
        rw [hred, hts]

/-- Witness for C8: an unrecognized type name `datetime` leaves a string
value untouched, and a recognized `int` coerces a numeric string. -/
theorem claim_C8_witness :
    validateField (PyVal.vStr "2024") ({ type := some "datetime" } : Rule) =
        (true, PyVal.vStr "2024") ∧
      validateField (PyVal.vStr "7") ({ type := some "int" } : Rule) = (true, PyVal.vInt 7) := by
  constructor
  · have h := (claim_C8_type_dispatch (PyVal.vStr "2024") { type := some "datetime" }
      "datetime" (by decide) rfl).1 (by decide)
    rw [h]
    rfl
  · have h := (((claim_C8_type_dispatch (PyVal.vStr "7") { type := some "int" }
      "int" (by decide) rfl).2 PyType.int (by decide)).2 (by decide)).1
      (PyVal.vInt 7) (by decide)
    rw [h]
    rfl

/-! ## Lemmas about the duplicate resolver -/

theorem firstPerKey_sublist (f : Reg → String × String × String) :
    ∀ (n : Nat) (l : List Reg), l.length ≤ n → List.Sublist (firstPerKey f l) l := by
  intro n
  induction n with
  | zero =>
      intro l hl
      have hnil : l = [] := List.eq_nil_of_length_eq_zero (Nat.le_zero.mp hl)
      subst hnil
      simp [firstPerKey]
  | succ n ih =>
      intro l hl
      cases l with
      | nil => simp [firstPerKey]
      | cons r rs =>
          have hrs : rs.length ≤ n := by
            simp only [List.length_cons] at hl
            omega
          have hstep : firstPerKey f (r :: rs) =
              r :: firstPerKey f (rs.filter (fun x => f x ≠ f r)) := by
            simp [firstPerKey]
          rw [hstep]
          exact List.Sublist.cons₂ r
            ((ih _ (le_trans (List.length_filter_le _ _) hrs)).trans (List.filter_sublist _))

theorem dropDupsBy_eq_firstPerKey (f : Reg → String × String × String) :
    ∀ (l : List Reg) (seen : List (String × String × String)),
      dropDupsBy f l seen = firstPerKey f (l.filter (fun x => f x ∉ seen)) := by
  intro l
  induction l with
  | nil =>
      intro seen
      simp [dropDupsBy, firstPerKey]
  | cons r rs ih =>
      intro seen
      by_cases hc : f r ∈ seen
      · rw [show dropDupsBy f (r :: rs) seen = dropDupsBy f rs seen by
          simp [dropDupsBy, hc]]
        rw [ih seen]
        congr 1
        simp [List.filter_cons, hc]
      · rw [show dropDupsBy f (r :: rs) seen = r :: dropDupsBy f rs (f r :: seen) by
          simp [dropDupsBy, hc]]
        rw [ih (f r :: seen)]
        have hfc : (r :: rs).filter (fun x => f x ∉ seen) =
            r :: rs.filter (fun x => f x ∉ seen) := by
          simp [List.filter_cons, hc]
        rw [hfc]
        have hstep : firstPerKey f (r :: rs.filter (fun x => f x ∉ seen)) =
            r :: firstPerKey f ((rs.filter (fun x => f x ∉ seen)).filter
              (fun x => f x ≠ f r)) := by
          simp [firstPerKey]
        rw [hstep]
        congr 1
        rw [List.filter_filter]
        congr 1
        apply List.filter_congr
        intro x _
        by_cases h1 : f x = f r <;> by_cases h2 : f x ∈ seen <;> simp [h1, h2]

theorem dropDupsBy_nil_seen (f : Reg → String × String × String) (l : List Reg) :
    dropDupsBy f l [] = firstPerKey f l := by
  rw [dropDupsBy_eq_firstPerKey]
  congr 1
  simp

theorem resolveDuplicates_eq_spec (candidates existing : List Reg) :
    resolveDuplicates candidates existing = resolveSpec candidates existing := by
  simp only [resolveDuplicates, resolveSpec]
  by_cases h : (existing.map normalizeReg).isEmpty = true
  · rw [if_pos h, dropDupsBy_nil_seen]
    have hnil : existing.map normalizeReg = [] := List.isEmpty_iff.mp h
    rw [hnil]
    congr 1
    simp
  · rw [if_neg h, dropDupsBy_nil_seen]

theorem firstPerKey_exists_rep (f : Reg → String × String × String) :
    ∀ (n : Nat) (l : List Reg), l.length ≤ n →
      ∀ x ∈ l, ∃ y ∈ firstPerKey f l, f y = f x := by
  intro n
  induction n with
  | zero =>
      intro l hl x hx
      have hnil : l = [] := List.eq_nil_of_length_eq_zero (Nat.le_zero.mp hl)
      subst hnil
      simp at hx
  | succ n ih =>
      intro l hl x hx
      cases l with
      | nil => simp at hx
      | cons r rs =>
          have hrs : rs.length ≤ n := by
            simp only [List.length_cons] at hl
            omega
          have hstep : firstPerKey f (r :: rs) =
              r :: firstPerKey f (rs.filter (fun t => f t ≠ f r)) := by
            simp [firstPerKey]
          rcases List.mem_cons.mp hx with rfl | hx'
          · exact ⟨x, by rw [hstep]; exact List.mem_cons_self _ _, rfl⟩
          · by_cases hk : f x = f r
            · exact ⟨r, by rw [hstep]; exact List.mem_cons_self _ _, hk.symm⟩
            · have hxf : x ∈ rs.filter (fun t => f t ≠ f r) := by
                rw [List.mem_filter]
                exact ⟨hx', by simp [hk]⟩
              obtain ⟨y, hy, hfy⟩ := ih _ (le_trans (List.length_filter_le _ _) hrs) x hxf
              exact ⟨y, by rw [hstep]; exact List.mem_cons_of_mem _ hy, hfy⟩

/-! ## Claim theorems: the duplicate resolver -/

/-- Counterexample to C2 as stated: the candidate's normalized Identity Key
triple (title `"a|b"`, date `"c"`, link `""`) differs componentwise from the
stored record's triple (`"a"`, `"b|c"`, `""`), so under the claim the
candidate should survive; the code nevertheless drops it, because the
duplicate test against stored records compares `"|"`-concatenated strings
and both triples concatenate to `"a|b|c|"`. -/
theorem claim_C2_counterexample :
    identityTriple (normalizeReg ⟨"a|b", "c", "ANI", some ""⟩) ≠
        identityTriple (normalizeReg ⟨"a", "b|c", "ANI", some ""⟩) ∧
      resolveDuplicates [⟨"a|b", "c", "ANI", some ""⟩] [⟨"a", "b|c", "ANI", some ""⟩] = [] := by
  exact ⟨by decide, by decide⟩

/-- C2 (amended): the resolver equals the reference description in which
the *against-stored* comparison uses the concatenated string key
`title|created_at|external_link` (which can conflate distinct triples),
while internal deduplication keeps the first occurrence per componentwise
normalized triple; the survivors appear in their original relative order
(a sublist of the normalized batch). -/
theorem claim_C2_resolver_amended :
    ∀ (candidates existing : List Reg),
      resolveDuplicates candidates existing = resolveSpec candidates existing ∧
        List.Sublist (resolveDuplicates candidates existing) (candidates.map normalizeReg) := by
  intro candidates existing
  refine ⟨resolveDuplicates_eq_spec candidates existing, ?_⟩
  rw [resolveDuplicates_eq_spec]
  simp only [resolveSpec]
  exact (firstPerKey_sublist _ _ _ (le_refl _)).trans (List.filter_sublist _)

/-- C10: the stored-duplicate check concatenates title, created_at and
external_link with `"|"`; the key is not injective: candidate
(`"x"`, `"y|z"`, `""`) and stored row (`"x|y"`, `"z"`, `""`) differ
componentwise yet share the key `"x|y|z|"`, so the candidate is classified
as duplicate-of-stored and dropped — both by the resolver and by the full
`insert_new_records`, which inserts nothing. -/
theorem claim_C10_concat_key_collision :
    uniqueKey (normalizeReg ⟨"x|y", "z", "E", some ""⟩) =
        uniqueKey (normalizeReg ⟨"x", "y|z", "E", some ""⟩) ∧
      identityTriple (normalizeReg ⟨"x|y", "z", "E", some ""⟩) ≠
        identityTriple (normalizeReg ⟨"x", "y|z", "E", some ""⟩) ∧
      resolveDuplicates [⟨"x", "y|z", "E", some ""⟩] [⟨"x|y", "z", "E", some ""⟩] = [] ∧
      insert_new_records noDbFailure noDbFailure
          ⟨[⟨1, "x|y", "z", "E", some ""⟩], [], 2⟩ [⟨"x", "y|z", "E", some ""⟩] "E" =
        (⟨[⟨1, "x|y", "z", "E", some ""⟩], [], 2⟩, 0,
          "Sin registros nuevos para E tras validación de duplicados") := by
  exact ⟨by decide, by decide, by decide, by decide⟩

/-! ## Lemmas about the persistence gateway -/

theorem execMany_ok {α : Type} (failsAt : α → Option String) :
    ∀ (rows pending : List α),
      (∀ r ∈ rows, failsAt r = none) →
      execMany failsAt pending rows = Except.ok (pending ++ rows) := by
  intro rows
  induction rows with
  | nil =>
      intro pending _
      simp [execMany]
  | cons r rs ih =>
      intro pending hall
      have hr : failsAt r = none := hall r (List.mem_cons_self _ _)
      simp only [execMany, hr]
      rw [ih (pending ++ [r]) (fun x hx => hall x (List.mem_cons_of_mem _ hx))]
      simp

theorem execMany_error {α : Type} (failsAt : α → Option String) :
    ∀ (rows pending : List α),
      (∃ r ∈ rows, failsAt r ≠ none) →
      ∃ e, execMany failsAt pending rows = Except.error e ∧
        ∃ r ∈ rows, failsAt r = some e := by
  intro rows
  induction rows with
  | nil =>
      intro pending hex
      obtain ⟨r, hr, _⟩ := hex
      simp at hr
  | cons r rs ih =>
      intro pending hex
      cases hfr : failsAt r with
      | some e =>
          exact ⟨e, by simp [execMany, hfr], r, List.mem_cons_self _ _, hfr⟩
      | none =>
          have hex' : ∃ x ∈ rs, failsAt x ≠ none := by
            obtain ⟨x, hx, hxf⟩ := hex
            rcases List.mem_cons.mp hx with rfl | hx'
            · exact absurd hfr hxf
            · exact ⟨x, hx', hxf⟩
          obtain ⟨e, he, x, hx, hxf⟩ := ih (pending ++ [r]) hex'
          exact ⟨e, by simp [execMany, hfr, he], x, List.mem_cons_of_mem _ hx, hxf⟩

/-! ## Claim theorems: bulk insert and error handling -/

/-- C3: `bulk_insert` is atomic: when no row of the batch fails, every row
is committed after the already-committed rows and the batch's row count is
returned; when some row fails, the transaction is rolled back so the
committed rows are exactly as before, and an error is raised. -/
theorem claim_C3_bulk_insert_atomic :
    ∀ (α : Type) (failsAt : α → Option String) (tableName : String)
      (committed rows : List α),
      ((∀ r ∈ rows, failsAt r = none) →
        bulk_insert failsAt tableName committed rows =
          (committed ++ rows, Except.ok rows.length)) ∧
      ((∃ r ∈ rows, failsAt r ≠ none) →
        ∃ e, bulk_insert failsAt tableName committed rows =
          (committed, Except.error s!"Error insertando en {tableName}: {e}") ∧
          ∃ r ∈ rows, failsAt r = some e) := by
  intro α failsAt tableName committed rows
  constructor
  · intro hall
    simp [bulk_insert, execMany_ok failsAt rows [] hall]
  · intro hex
    obtain ⟨e, he, hw⟩ := execMany_error failsAt rows [] hex
    exact ⟨e, by simp [bulk_insert, he], hw⟩

/-- Witness for C3: a clean batch of two rows is appended whole and
returns count 2; a batch whose second row fails leaves the table exactly
as before and raises. -/
theorem claim_C3_witness :
    bulk_insert (noDbFailure : Nat → Option String) "regulations" [1] [2, 3] =
        ([1, 2, 3], Except.ok 2) ∧
      ∃ e, bulk_insert (fun n => if n = 3 then some "boom" else none) "regulations"
          ([1] : List Nat) [2, 3] =
            ([1], Except.error s!"Error insertando en regulations: {e}") ∧
          ∃ r ∈ [2, 3], (if r = 3 then some "boom" else none) = some e := by
  constructor
  · exact (claim_C3_bulk_insert_atomic Nat noDbFailure "regulations" [1] [2, 3]).1
      (fun r _ => rfl)
  · exact (claim_C3_bulk_insert_atomic Nat _ "regulations" [1] [2, 3]).2
      ⟨3, by decide, by decide⟩

/-- Counterexample to C4 as stated: a non-duplicate database failure
("disk full") during the bulk insert is re-raised inside the function body
(the inner computation ends in an error), but `insert_new_records`'s outer
handler catches it and *returns* `(0, error message)` to the caller
instead of propagating the exception. -/
theorem claim_C4_counterexample :
    insert_new_records_inner (fun _ => some "disk full") noDbFailure ⟨[], [], 1⟩
        [⟨"t", "2024", "E", some "l"⟩] "E" =
      (⟨[], [], 1⟩, Except.error "Error insertando en regulations: disk full") ∧
      insert_new_records (fun _ => some "disk full") noDbFailure ⟨[], [], 1⟩
          [⟨"t", "2024", "E", some "l"⟩] "E" =
        (⟨[], [], 1⟩, 0,
          "Error procesando entidad E: Error insertando en regulations: disk full") := by
  exact ⟨by rfl, by decide⟩

/-- C4 (amended): a non-duplicate database error during the bulk insert
rolls back (the store is unchanged) and is re-raised internally, but the
outer handler of `insert_new_records` catches it and returns inserted
count 0 with an error message for that entity; no exception reaches the
caller. -/
theorem claim_C4_persistence_error_amended :
    ∀ (failsAt : RegRow → Option String) (compFailsAt : Nat × Nat → Option String)
      (db : DB) (df : List Reg) (entity e : String),
      (df.filter (fun r => r.entity = entity)).isEmpty = false →
      (resolveDuplicates (df.filter (fun r => r.entity = entity))
        (queryExisting db entity)).isEmpty = false →
      bulk_insert failsAt "regulations" db.regulations
          (assignIds db.nextId (resolveDuplicates (df.filter (fun r => r.entity = entity))
            (queryExisting db entity))) = (db.regulations, Except.error e) →
      isDupError e = false →
      insert_new_records_inner failsAt compFailsAt db df entity = (db, Except.error e) ∧
        insert_new_records failsAt compFailsAt db df entity =
          (db, 0, s!"Error procesando entidad {entity}: {e}") := by
  intro failsAt compFailsAt db df entity e hne hnr herr hdup
  have hinner : insert_new_records_inner failsAt compFailsAt db df entity =
      (db, Except.error e) := by
    simp [insert_new_records_inner, hne, hnr, herr, hdup]
  exact ⟨hinner, by simp [insert_new_records, hinner]⟩

/-- Witness for C4 (amended): a concrete "connection lost" bulk-insert
failure is caught and reported as a returned message. -/
theorem claim_C4_witness :
    insert_new_records (fun _ => some "connection lost") noDbFailure ⟨[], [], 5⟩
        [⟨"u", "2025", "ANI", none⟩] "ANI" =
      (⟨[], [], 5⟩, 0,
        "Error procesando entidad ANI: Error insertando en regulations: connection lost") :=
  (claim_C4_persistence_error_amended (fun _ => some "connection lost") noDbFailure
    ⟨[], [], 5⟩ [⟨"u", "2025", "ANI", none⟩] "ANI"
    "Error insertando en regulations: connection lost"
    (by decide) (by decide) (by rfl) (by decide)).2

/-- C5: a bulk-insert failure whose message indicates a duplicate/unique
constraint violation is recoverable: `insert_new_records` does not raise,
the store is unchanged, and it returns inserted count 0 with the
explanatory duplicate message for that entity. -/
theorem claim_C5_duplicate_error_recoverable :
    ∀ (failsAt : RegRow → Option String) (compFailsAt : Nat × Nat → Option String)
      (db : DB) (df : List Reg) (entity e : String),
      (df.filter (fun r => r.entity = entity)).isEmpty = false →
      (resolveDuplicates (df.filter (fun r => r.entity = entity))
        (queryExisting db entity)).isEmpty = false →
      bulk_insert failsAt "regulations" db.regulations
          (assignIds db.nextId (resolveDuplicates (df.filter (fun r => r.entity = entity))
            (queryExisting db entity))) = (db.regulations, Except.error e) →
      isDupError e = true →
      insert_new_records failsAt compFailsAt db df entity =
        (db, 0, s!"Algunos registros de {entity} eran duplicados y se omitieron") := by
  intro failsAt compFailsAt db df entity e hne hnr herr hdup
  have hinner : insert_new_records_inner failsAt compFailsAt db df entity =
      (db, Except.ok (0, s!"Algunos registros de {entity} eran duplicados y se omitieron")) := by
    simp [insert_new_records_inner, hne, hnr, herr, hdup]
  simp [insert_new_records, hinner]

/-- Witness for C5: a "duplicate key value violates unique constraint"
failure yields the duplicate message and count 0 without raising. -/
theorem claim_C5_witness :
    insert_new_records (fun _ => some "duplicate key value violates unique constraint")
        noDbFailure ⟨[], [], 1⟩ [⟨"v", "2023", "ANI", none⟩] "ANI" =
      (⟨[], [], 1⟩, 0, "Algunos registros de ANI eran duplicados y se omitieron") :=
  claim_C5_duplicate_error_recoverable
    (fun _ => some "duplicate key value violates unique constraint") noDbFailure
    ⟨[], [], 1⟩ [⟨"v", "2023", "ANI", none⟩] "ANI"
    "Error insertando en regulations: duplicate key value violates unique constraint"
    (by decide) (by decide) (by rfl) (by decide)

/-! ## Lemmas towards idempotence of the write stage -/

theorem dropWhile_prefix_fix (p : Char → Bool) :
    ∀ (l l' : List Char), l' <+: l → List.dropWhile p l = l → List.dropWhile p l' = l' := by
  intro l l' hpre hfix
  cases l' with
  | nil => simp
  | cons x t =>
      obtain ⟨t', ht⟩ := hpre
      cases hpx : p x with
      | false => simp [List.dropWhile_cons, hpx]
      | true =>
          exfalso
          rw [← ht] at hfix
          have hlen := ((List.dropWhile_suffix p :
            List.dropWhile p (t ++ t') <:+ (t ++ t'))).sublist.length_le
          rw [List.cons_append, List.dropWhile_cons, hpx] at hfix
          simp only [if_true] at hfix
          rw [hfix] at hlen
          simp at hlen

theorem stripChars_idem (l : List Char) : stripChars (stripChars l) = stripChars l := by
  have hmfix : List.dropWhile isWS (List.dropWhile isWS l) = List.dropWhile isWS l :=
    List.dropWhile_idempotent _ _
  have hApre : ((List.dropWhile isWS l).reverse.dropWhile isWS).reverse <+:
      List.dropWhile isWS l := by
    have h := (@List.reverse_prefix Char
      ((List.dropWhile isWS l).reverse.dropWhile isWS)
      ((List.dropWhile isWS l).reverse)).mpr (List.dropWhile_suffix isWS)
    rwa [List.reverse_reverse] at h
  have hAfix := dropWhile_prefix_fix isWS _ _ hApre hmfix
  simp only [stripChars]
  rw [hAfix, List.reverse_reverse, List.dropWhile_idempotent]

theorem pyStrip_idem (s : String) : pyStrip (pyStrip s) = pyStrip s := by
  simp only [pyStrip]
  exact congrArg String.mk (stripChars_idem s.data)

theorem normalizeReg_idem (r : Reg) : normalizeReg (normalizeReg r) = normalizeReg r := by
  simp [normalizeReg, pyStrip_idem]

/-- Reading a just-inserted (normalized) record back through the
`COALESCE` projection and normalizing again reproduces it: the Identity
Key is stable across a DB round-trip. -/
theorem normalizeReg_roundtrip (c : Reg) :
    normalizeReg ⟨(normalizeReg c).title, (normalizeReg c).created_at,
      (normalizeReg c).entity, some ((normalizeReg c).external_link.getD "")⟩ =
      normalizeReg c := by
  simp [normalizeReg, pyStrip_idem]

theorem uniqueKey_eq_of_triple_eq {a b : Reg}
    (h : identityTriple a = identityTriple b) : uniqueKey a = uniqueKey b := by
  simp only [identityTriple, Prod.mk.injEq] at h
  simp only [uniqueKey, h.1, h.2.1, h.2.2]

theorem bulk_insert_noFail {α : Type} (t : String) (committed rows : List α) :
    bulk_insert noDbFailure t committed rows = (committed ++ rows, Except.ok rows.length) := by
  simp [bulk_insert, execMany_ok noDbFailure rows [] (fun r _ => rfl)]

theorem assignIds_length (start : Nat) :
    ∀ rows : List Reg, (assignIds start rows).length = rows.length := by
  intro rows
  induction rows generalizing start with
  | nil => rfl
  | cons r rs ih => simp [assignIds, ih]

theorem assignIds_mem (start : Nat) :
    ∀ (rows : List Reg) (s : Reg), s ∈ rows →
      ∃ row ∈ assignIds start rows, row.title = s.title ∧
        row.created_at = s.created_at ∧ row.entity = s.entity ∧
        row.external_link = s.external_link := by
  intro rows
  induction rows generalizing start with
  | nil =>
      intro s hs
      simp at hs
  | cons r rs ih =>
      intro s hs
      rcases List.mem_cons.mp hs with rfl | hs'
      · exact ⟨⟨start, s.title, s.created_at, s.entity, s.external_link⟩,
          List.mem_cons_self _ _, rfl, rfl, rfl, rfl⟩
      · obtain ⟨row, hrow, hf⟩ := ih (start + 1) s hs'
        exact ⟨row, List.mem_cons_of_mem _ hrow, hf⟩

theorem insert_regulations_component_preserves
    (cf : Nat × Nat → Option String) (db : DB) (ids : List Nat) :
    (insert_regulations_component cf db ids).1.regulations = db.regulations ∧
      (insert_regulations_component cf db ids).1.nextId = db.nextId := by
  by_cases h : ids.isEmpty = true
  · simp [insert_regulations_component, h]
  · simp only [insert_regulations_component, h, Bool.false_eq_true, if_false]
    rcases hbi : bulk_insert cf "regulations_component" db.components
        (ids.map fun i => (i, 7)) with ⟨comps, res⟩
    cases res <;> simp

theorem queryExisting_regs (db : DB) (entity : String) :
    queryExisting db entity = (db.regulations.filter (fun r => r.entity = entity)).map
      (fun r => ⟨r.title, r.created_at, r.entity, some (r.external_link.getD "")⟩) := rfl

theorem resolveDuplicates_nil_left (dbDf : List Reg) :
    resolveDuplicates [] dbDf = [] := by
  simp only [resolveDuplicates, List.map_nil]
  by_cases h : (dbDf.map normalizeReg).isEmpty = true <;>
    simp [h, dropDupsBy]

/-- Every survivor of the resolver is the normalization of some candidate
for the entity (hence itself normalized, with the candidate's entity). -/
theorem resolveDuplicates_mem (entityDf dbDf : List Reg) :
    ∀ s ∈ resolveDuplicates entityDf dbDf, ∃ c ∈ entityDf, s = normalizeReg c := by
  intro s hs
  rw [resolveDuplicates_eq_spec] at hs
  have hsub : List.Sublist (resolveSpec entityDf dbDf) (entityDf.map normalizeReg) := by
    simp only [resolveSpec]
    exact (firstPerKey_sublist _ _ _ (le_refl _)).trans (List.filter_sublist _)
  have hmem : s ∈ entityDf.map normalizeReg := hsub.subset hs
  obtain ⟨c, hc, hcs⟩ := List.mem_map.mp hmem
  exact ⟨c, hc, hcs.symm⟩

/-- After a run with no DB failures, every candidate's key occurs either
among the pre-existing keys or among the survivors' keys. -/
theorem resolve_key_coverage (entityDf dbDf : List Reg) :
    ∀ c ∈ entityDf,
      uniqueKey (normalizeReg c) ∈ ((dbDf.map normalizeReg).map uniqueKey) ∨
        ∃ s ∈ resolveDuplicates entityDf dbDf, uniqueKey s = uniqueKey (normalizeReg c) := by
  intro c hc
  by_cases hk : uniqueKey (normalizeReg c) ∈ (dbDf.map normalizeReg).map uniqueKey
  · exact Or.inl hk
  · right
    have hcf : normalizeReg c ∈ (entityDf.map normalizeReg).filter
        (fun x => uniqueKey x ∉ (dbDf.map normalizeReg).map uniqueKey) := by
      rw [List.mem_filter]
      refine ⟨List.mem_map.mpr ⟨c, hc, rfl⟩, ?_⟩
      simp only [decide_eq_true_eq]
      exact hk
    obtain ⟨y, hy, hfy⟩ := firstPerKey_exists_rep identityTriple _ _ (le_refl _) _ hcf
    refine ⟨y, ?_, uniqueKey_eq_of_triple_eq hfy⟩
    rw [resolveDuplicates_eq_spec]
    simpa [resolveSpec] using hy

theorem insert_new_records_noFail_run (compFailsAt : Nat × Nat → Option String)
    (db : DB) (df : List Reg) (entity : String) :
    (insert_new_records noDbFailure compFailsAt db df entity).2.1 =
        (resolveDuplicates (df.filter (fun r => r.entity = entity))
          (queryExisting db entity)).length ∧
      (insert_new_records noDbFailure compFailsAt db df entity).1.regulations =
        db.regulations ++ assignIds db.nextId
          (resolveDuplicates (df.filter (fun r => r.entity = entity))
            (queryExisting db entity)) ∧
      (insert_new_records noDbFailure compFailsAt db df entity).1.nextId =
        db.nextId + (resolveDuplicates (df.filter (fun r => r.entity = entity))
          (queryExisting db entity)).length := by
  by_cases h1 : (df.filter (fun r => r.entity = entity)).isEmpty = true
  · have hdf : df.filter (fun r => r.entity = entity) = [] := List.isEmpty_iff.mp h1
    have hnil : resolveDuplicates (df.filter (fun r => r.entity = entity))
        (queryExisting db entity) = [] := by
      rw [hdf]
      exact resolveDuplicates_nil_left _
    rw [hnil]
    simp [insert_new_records, insert_new_records_inner, h1, assignIds]
  · by_cases h2 : (resolveDuplicates (df.filter (fun r => r.entity = entity))
        (queryExisting db entity)).isEmpty = true
    · have hnil : resolveDuplicates (df.filter (fun r => r.entity = entity))
          (queryExisting db entity) = [] := List.isEmpty_iff.mp h2
      rw [hnil]
      have h1' : (df.filter (fun r => r.entity = entity)).isEmpty = false := by
        simpa using h1
      simp [insert_new_records, insert_new_records_inner, h1', hnil, assignIds]
    · have h1' : (df.filter (fun r => r.entity = entity)).isEmpty = false := by
        simpa using h1
      have h2' : (resolveDuplicates (df.filter (fun r => r.entity = entity))
          (queryExisting db entity)).isEmpty = false := by
        simpa using h2
      have hbulk := bulk_insert_noFail "regulations" db.regulations
        (assignIds db.nextId (resolveDuplicates (df.filter (fun r => r.entity = entity))
          (queryExisting db entity)))
      have hlen := assignIds_length db.nextId (resolveDuplicates
        (df.filter (fun r => r.entity = entity)) (queryExisting db entity))
      have hlen0 : ((resolveDuplicates (df.filter (fun r => r.entity = entity))
          (queryExisting db entity)).length = 0) = False := by
        apply eq_false
        intro h0
        rw [List.eq_nil_of_length_eq_zero h0] at h2'
        simp at h2'
      refine ⟨?_, ?_, ?_⟩
      · simp only [insert_new_records, insert_new_records_inner, h1', h2', hbulk, hlen,
          hlen0, Bool.false_eq_true, if_false, ite_false]
      · simp only [insert_new_records, insert_new_records_inner, h1', h2', hbulk, hlen,
          hlen0, Bool.false_eq_true, if_false, ite_false]
        split
        · rfl
        · exact (insert_regulations_component_preserves _ _ _).1
      · simp only [insert_new_records, insert_new_records_inner, h1', h2', hbulk, hlen,
          hlen0, Bool.false_eq_true, if_false, ite_false]
        split
        · rfl
        · exact (insert_regulations_component_preserves _ _ _).2

theorem assignIds_mem_rev (start : Nat) :
    ∀ (rows : List Reg) (row : RegRow), row ∈ assignIds start rows →
      ∃ s ∈ rows, row.title = s.title ∧ row.created_at = s.created_at ∧
        row.entity = s.entity ∧ row.external_link = s.external_link := by
  intro rows
  induction rows generalizing start with
  | nil =>
      intro row h
      simp [assignIds] at h
  | cons r rs ih =>
      intro row h
      rcases List.mem_cons.mp h with rfl | h'
      · exact ⟨r, List.mem_cons_self _ _, rfl, rfl, rfl, rfl⟩
      · obtain ⟨s, hs, hf⟩ := ih (start + 1) row h'
        exact ⟨s, List.mem_cons_of_mem _ hs, hf⟩

/-- After the first run has appended the survivors to the store, every
candidate's normalized key is found among the keys of the (re-read and
re-normalized) stored records. -/
theorem second_run_keys_covered (db : DB) (df : List Reg) (entity : String) (db1 : DB)
    (hregs : db1.regulations = db.regulations ++ assignIds db.nextId
      (resolveDuplicates (df.filter (fun r => r.entity = entity)) (queryExisting db entity))) :
    ∀ c ∈ df.filter (fun r => r.entity = entity),
      uniqueKey (normalizeReg c) ∈
        ((queryExisting db1 entity).map normalizeReg).map uniqueKey := by
  intro c hcE
  have hQ1 : queryExisting db1 entity = queryExisting db entity ++
      ((assignIds db.nextId (resolveDuplicates (df.filter (fun r => r.entity = entity))
          (queryExisting db entity))).filter (fun r => r.entity = entity)).map
        (fun r => ⟨r.title, r.created_at, r.entity, some (r.external_link.getD "")⟩) := by
    rw [queryExisting_regs db1, hregs, List.filter_append, List.map_append,
      ← queryExisting_regs]
  rcases resolve_key_coverage (df.filter (fun r => r.entity = entity))
      (queryExisting db entity) c hcE with hL | ⟨s, hs, hks⟩
  · rw [hQ1, List.map_append, List.map_append, List.mem_append]
    exact Or.inl hL
  · obtain ⟨c', hc', hsc'⟩ := resolveDuplicates_mem _ _ s hs
    have hc'e : c'.entity = entity := of_decide_eq_true (List.mem_filter.mp hc').2
    have hsent : s.entity = entity := by
      rw [hsc']
      simpa [normalizeReg] using hc'e
    obtain ⟨row, hrow, hrt, hrc, hre, hrl⟩ := assignIds_mem db.nextId _ s hs
    have hrowf : row ∈ (assignIds db.nextId (resolveDuplicates
        (df.filter (fun r => r.entity = entity)) (queryExisting db entity))).filter
          (fun r => r.entity = entity) := by
      rw [List.mem_filter]
      exact ⟨hrow, by simp [hre, hsent]⟩
    have hproj : (⟨s.title, s.created_at, s.entity, some (s.external_link.getD "")⟩ : Reg) ∈
        ((assignIds db.nextId (resolveDuplicates (df.filter (fun r => r.entity = entity))
            (queryExisting db entity))).filter (fun r => r.entity = entity)).map
          (fun r => ⟨r.title, r.created_at, r.entity, some (r.external_link.getD "")⟩) := by
      refine List.mem_map.mpr ⟨row, hrowf, ?_⟩
      rw [hrt, hrc, hre, hrl]
    have hnorm : normalizeReg
        ⟨s.title, s.created_at, s.entity, some (s.external_link.getD "")⟩ = s := by
      rw [hsc']
      exact normalizeReg_roundtrip c'
    rw [hQ1, List.map_append, List.map_append, List.mem_append]
    right
    rw [← hks]
    exact List.mem_map.mpr ⟨s, List.mem_map.mpr
      ⟨⟨s.title, s.created_at, s.entity, some (s.external_link.getD "")⟩, hproj, hnorm⟩, rfl⟩

/-- Running the resolver again after the survivors have been stored leaves
nothing to insert. -/
theorem resolve_after_insert_nil (db : DB) (df : List Reg) (entity : String) (db1 : DB)
    (hregs : db1.regulations = db.regulations ++ assignIds db.nextId
      (resolveDuplicates (df.filter (fun r => r.entity = entity)) (queryExisting db entity))) :
    resolveDuplicates (df.filter (fun r => r.entity = entity))
      (queryExisting db1 entity) = [] := by
  rw [resolveDuplicates_eq_spec]
  simp only [resolveSpec]
  have hfil : ((df.filter (fun r => r.entity = entity)).map normalizeReg).filter
      (fun x => uniqueKey x ∉
        ((queryExisting db1 entity).map normalizeReg).map uniqueKey) = [] := by
    rw [List.filter_eq_nil_iff]
    intro x hx
    obtain ⟨c, hcE, rfl⟩ := List.mem_map.mp hx
    have hcov := second_run_keys_covered db df entity db1 hregs c hcE
    simpa using hcov
  rw [hfil]
  simp [firstPerKey]

/-! ## Claim theorem: idempotence of the write stage -/

/-- C7: the write stage is idempotent (absent DB failures): the first run
inserts exactly the deduplicated batch (count = number of survivors, all
appended to the store), after which every candidate's Identity Key is
found in the existing set, so a second run of the same batch against the
resulting store inserts zero rows. -/
theorem claim_C7_write_idempotent :
    ∀ (compFailsAt : Nat × Nat → Option String) (db : DB) (df : List Reg) (entity : String)
      (db1 db2 : DB) (n1 n2 : Nat) (m1 m2 : String),
      insert_new_records noDbFailure compFailsAt db df entity = (db1, n1, m1) →
      insert_new_records noDbFailure compFailsAt db1 df entity = (db2, n2, m2) →
      n1 = (resolveDuplicates (df.filter (fun r => r.entity = entity))
        (queryExisting db entity)).length ∧
      db1.regulations = db.regulations ++ assignIds db.nextId
        (resolveDuplicates (df.filter (fun r => r.entity = entity))
          (queryExisting db entity)) ∧
      (∀ c ∈ df.filter (fun r => r.entity = entity),
        uniqueKey (normalizeReg c) ∈
          ((queryExisting db1 entity).map normalizeReg).map uniqueKey) ∧
      n2 = 0 := by
  intro compFailsAt db df entity db1 db2 n1 n2 m1 m2 h1 h2
  obtain ⟨ha, hb, _⟩ := insert_new_records_noFail_run compFailsAt db df entity
  rw [h1] at ha hb
  obtain ⟨ha2, _, _⟩ := insert_new_records_noFail_run compFailsAt db1 df entity
  rw [h2] at ha2
  rw [resolve_after_insert_nil db df entity db1 hb] at ha2
  exact ⟨ha, hb, second_run_keys_covered db df entity db1 hb, ha2⟩

/-- Witness for C7: a two-record batch (with an internal duplicate pair)
inserts its two distinct records on the first run and nothing on the
second. -/
theorem claim_C7_witness :
    (insert_new_records noDbFailure noDbFailure ⟨[], [], 1⟩
        [⟨" A ", "2024", "E", none⟩, ⟨"A", "2024", "E", none⟩, ⟨"B", "2025", "E", some "x"⟩]
        "E").2.1 = 2 ∧
      ∃ db2 m2,
        insert_new_records noDbFailure noDbFailure
          (insert_new_records noDbFailure noDbFailure ⟨[], [], 1⟩
            [⟨" A ", "2024", "E", none⟩, ⟨"A", "2024", "E", none⟩, ⟨"B", "2025", "E", some "x"⟩]
            "E").1
          [⟨" A ", "2024", "E", none⟩, ⟨"A", "2024", "E", none⟩, ⟨"B", "2025", "E", some "x"⟩]
          "E" = (db2, 0, m2) := by
  have h := claim_C7_write_idempotent noDbFailure ⟨[], [], 1⟩
    [⟨" A ", "2024", "E", none⟩, ⟨"A", "2024", "E", none⟩, ⟨"B", "2025", "E", some "x"⟩] "E"
    (insert_new_records noDbFailure noDbFailure ⟨[], [], 1⟩
      [⟨" A ", "2024", "E", none⟩, ⟨"A", "2024", "E", none⟩, ⟨"B", "2025", "E", some "x"⟩]
      "E").1
    (insert_new_records noDbFailure noDbFailure
      (insert_new_records noDbFailure noDbFailure ⟨[], [], 1⟩
        [⟨" A ", "2024", "E", none⟩, ⟨"A", "2024", "E", none⟩, ⟨"B", "2025", "E", some "x"⟩]
        "E").1
      [⟨" A ", "2024", "E", none⟩, ⟨"A", "2024", "E", none⟩, ⟨"B", "2025", "E", some "x"⟩]
      "E").1
    (insert_new_records noDbFailure noDbFailure ⟨[], [], 1⟩
      [⟨" A ", "2024", "E", none⟩, ⟨"A", "2024", "E", none⟩, ⟨"B", "2025", "E", some "x"⟩]
      "E").2.1
    (insert_new_records noDbFailure noDbFailure
      (insert_new_records noDbFailure noDbFailure ⟨[], [], 1⟩
        [⟨" A ", "2024", "E", none⟩, ⟨"A", "2024", "E", none⟩, ⟨"B", "2025", "E", some "x"⟩]
        "E").1
      [⟨" A ", "2024", "E", none⟩, ⟨"A", "2024", "E", none⟩, ⟨"B", "2025", "E", some "x"⟩]
      "E").2.1
    (insert_new_records noDbFailure noDbFailure ⟨[], [], 1⟩
      [⟨" A ", "2024", "E", none⟩, ⟨"A", "2024", "E", none⟩, ⟨"B", "2025", "E", some "x"⟩]
      "E").2.2
    (insert_new_records noDbFailure noDbFailure
      (insert_new_records noDbFailure noDbFailure ⟨[], [], 1⟩
        [⟨" A ", "2024", "E", none⟩, ⟨"A", "2024", "E", none⟩, ⟨"B", "2025", "E", some "x"⟩]
        "E").1
      [⟨" A ", "2024", "E", none⟩, ⟨"A", "2024", "E", none⟩, ⟨"B", "2025", "E", some "x"⟩]
      "E").2.2
    rfl rfl
  refine ⟨?_, ?_⟩
  · rw [h.1]
    decide
  · exact ⟨_, _, by rw [← h.2.2.2]⟩

end ANI
